import Mathlib

/-!
UnrealQuickLog: the macros of `qLogs.h`.

`qLogs.h` is a header of preprocessor macros over the logging, assertion and
screen-message primitives of the host engine.  Every macro is embedded as a Lean
function of the same name:

* a string-literal parameter (`Fmt`, `Format`, `RawMessage`) is a `String`, and the
  concatenation of adjacent literals is `++`; `TEXT(...)` only changes the character
  width of a literal and is the identity here;
* `__VA_ARGS__` is a `List Arg` of argument values, `__VA_OPT__(,) __VA_ARGS__` is
  list concatenation, and a test of `__VA_OPT__` is a match on the list being empty;
* the condition of an assertion macro is given as the caller writes it, a list of
  `PPToken`, together with the `MacroDefs` of the translation unit; the macro receives
  it after macro replacement, and `#` spells what it receives;
* `__FUNCTION__`, `__FILE__` and `__LINE__` are read from the `SrcLoc` of the place
  where the outermost macro is written;
* the `#if` of the header reads a `BuildConfig`;
* the globals and functions of the engine that the expanded code reads or calls are
  the fields of `Engine`;
* a call that the expanded code makes into the engine is recorded as an `Effect`, in
  program order; a macro that expands to statements returns the list of its effects.
-/

namespace QLogs

/-! ## Data model -/

/-- The verbosity names for which the header defines a `_Log<Verbosity>` helper. -/
inductive Verbosity
  | VeryVerbose
  | Verbose
  | Log
  | Display
  | Warning
  | Error
  | Fatal
  deriving DecidableEq, Repr

/-- The `FColor` constants the header names. -/
inductive FColor
  | Red
  | Yellow
  | Green
  deriving DecidableEq, Repr

/-- A printf argument, as a value. -/
inductive Arg
  | str (s : String)
  | int (n : Int)
  deriving DecidableEq, Repr

/-- What the predefined identifiers stand for where a macro of the header is written.
`LAMBDA` is the value of `__FUNCTION__` inside a lambda written at that place (the
header notes that it "still prints the inner lambda name"). -/
structure SrcLoc where
  FUNCTION : String
  LAMBDA : String
  FILE : String
  LINE : Nat
  deriving DecidableEq, Repr

/-- The three preprocessor flags read by the `#if` that guards `_PrintStringInner`. -/
structure BuildConfig where
  UE_BUILD_SHIPPING : Bool
  UE_BUILD_TEST : Bool
  USE_LOGGING_IN_SHIPPING : Bool
  deriving DecidableEq, Repr

/-- The engine's `EWorldType::Type`. -/
inductive EWorldType
  | None
  | Game
  | Editor
  | PIE
  | EditorPreview
  | GamePreview
  | GameRPC
  | Inactive
  deriving DecidableEq, Repr

/-- The engine's `ENetMode`. -/
inductive ENetMode
  | NM_Standalone
  | NM_DedicatedServer
  | NM_ListenServer
  | NM_Client
  | NM_MAX
  deriving DecidableEq, Repr

/-- The two members of `UWorld` that `_PrintStringPrefix` reads. -/
structure UWorld where
  WorldType : EWorldType
  GetNetMode : ENetMode
  deriving DecidableEq, Repr

/-- A preprocessing token as it is written: the white space (blanks, newlines,
comments) that stands before it, and its spelling. -/
structure PPToken where
  white : String
  spelling : String
  deriving DecidableEq, Repr

/-- The object-like macros defined where a macro of the header is invoked: the name
and the replacement list of each `#define`. -/
abbrev MacroDefs := List (String × List PPToken)

/-- A condition as the caller writes it in `qCheck(Expr)`, `qVerify(Expr)` or
`qEnsure(Expr)`: its tokens, and the value it evaluates to. -/
structure SrcExpr where
  tokens : List PPToken
  value : Bool
  deriving DecidableEq, Repr

/-- A condition as the inner macros receive it, after macro replacement: the
spelling that the `#` operator gives to its tokens, and the value it evaluates to. -/
structure CExpr where
  text : String
  value : Bool
  deriving DecidableEq, Repr

/-- The arguments of the `FStaticEnsureRecord` constructor. -/
structure FStaticEnsureRecord where
  Format : String
  Expression : String
  File : String
  Line : Nat
  bAlways : Bool
  deriving DecidableEq, Repr

/-- The host engine as the expanded macros see it.
`GEngine` is whether the pointer is non-null, `GetWorld` the result of
`GWorld->GetWorld()` (`none` for a null world), `Printf` is `FString::Printf`,
`IsEnsureAllowed` is `FPlatformMisc::IsEnsureAllowed()`, and `EnsureFailed` is
`::UE::Assert::Private::EnsureFailed`: from the value of the flag it is handed, the
record and the arguments it gives the new value of the flag and its return value. -/
structure Engine where
  GAreScreenMessagesEnabled : Bool
  GEngine : Bool
  GetWorld : Option UWorld
  GPlayInEditorID : Int
  Printf : String → List Arg → String
  IsEnsureAllowed : Bool
  EnsureFailed : Bool → FStaticEnsureRecord → List Arg → Bool × Bool

/-- A call into the engine made by the expanded code, with its arguments; the header
always passes the key `-1` and a `TimeToDisplay` of two seconds (`2.0f`). -/
inductive Effect
  | AddOnScreenDebugMessage (Key : Int) (TimeToDisplay : Nat) (DisplayColor : FColor)
      (DebugMessage : String)
  | UE_LOG (CategoryName : String) (Verbosity : Verbosity) (Format : String)
      (Args : List Arg)
  | checkf (expr : CExpr) (Format : String) (Args : List Arg)
  | checkfSlow (expr : CExpr) (Format : String) (Args : List Arg)
  | verifyf (expr : CExpr) (Format : String) (Args : List Arg)
  | EnsureFailed (Record : FStaticEnsureRecord) (Args : List Arg)
  | PLATFORM_BREAK
  deriving DecidableEq, Repr

/-- Whether an effect is a log record handed to `UE_LOG`. -/
def Effect.isLog : Effect → Bool
  | .UE_LOG _ _ _ _ => true
  | _ => false

/-- Whether an effect is an on-screen debug message. -/
def Effect.isScreen : Effect → Bool
  | .AddOnScreenDebugMessage _ _ _ _ => true
  | _ => false

/-- Whether an effect is an ensure report. -/
def Effect.isEnsureReport : Effect → Bool
  | .EnsureFailed _ _ => true
  | _ => false

/-! ## The preprocessor on a macro argument -/

/-- The spelling `#` gives to the tokens after the first: white space before a token
becomes one space character. -/
def spellRest : List PPToken → String
  | [] => ""
  | t :: ts => (if t.white = "" then "" else " ") ++ t.spelling ++ spellRest ts

/-- The `#` operator, as the value of the string literal it makes: white space before
the first token is deleted, white space between tokens becomes one space character. -/
def stringify : List PPToken → String
  | [] => ""
  | t :: ts => t.spelling ++ spellRest ts

/-- A replacement stands where the macro name stood: its first token takes the white
space written before the name. -/
def withWhite (white : String) : List PPToken → List PPToken
  | [] => []
  | t :: ts => { t with white := white } :: ts

/-- Macro replacement of a token sequence, to the given depth of nested replacement:
a token that spells a defined macro is replaced by the macro's replacement list, which
is itself rescanned with that macro no longer available. Only object-like macros are
covered, and the white space before a macro whose replacement list is empty is dropped
with it. -/
def macroReplace : Nat → MacroDefs → List PPToken → List PPToken
  | 0, _, ts => ts
  | n + 1, defs, ts =>
    ts.flatMap fun t =>
      match defs.lookup t.spelling with
      | none => [t]
      | some body =>
        withWhite t.white (macroReplace n (defs.filter fun d => d.1 != t.spelling) body)

/-- Full macro replacement: every nested replacement removes a macro, so the number of
macros is depth enough (`macroReplace_depth_enough`). -/
def macroReplaceAll (defs : MacroDefs) (ts : List PPToken) : List PPToken :=
  macroReplace defs.length defs ts

/-- What a macro receives for a parameter that is no operand of `#` or `##` in its
replacement list: the argument after full macro replacement. `Expr` is such a
parameter of `qCheck`, `qVerify` and `qEnsure`. -/
def prescan (defs : MacroDefs) (Expr : SrcExpr) : CExpr :=
  { text := stringify (macroReplaceAll defs Expr.tokens), value := Expr.value }

/-- Whether no token of the sequence spells a defined macro. -/
def namesNoMacro (defs : MacroDefs) (ts : List PPToken) : Bool :=
  ts.all fun t => (defs.lookup t.spelling).isNone

/-- The macro `_DEFAULT_LOG_CATEGORY`. -/
def _DEFAULT_LOG_CATEGORY : String := "LogTemp"

/-- The macro `_DEFAULT_LOG_MESSAGE_RAW_CHAR(RawMessage)`. -/
def _DEFAULT_LOG_MESSAGE_RAW_CHAR (RawMessage : String) : String :=
  "\t%60hs():\t" ++ RawMessage ++ "\t[\"%hs:%d\"]"

/-- The macro `_DEFAULT_LOG_ARGUMENTS(...)`:
`__FUNCTION__ __VA_OPT__(,) __VA_ARGS__, __FILE__, __LINE__`. -/
def _DEFAULT_LOG_ARGUMENTS (loc : SrcLoc) (va : List Arg) : List Arg :=
  Arg.str loc.FUNCTION :: va ++ [Arg.str loc.FILE, Arg.int loc.LINE]

/-- The macro `_DEFAULT_ASSERTION_MESSAGE(Condition)`; the argument is `#Condition`. -/
def _DEFAULT_ASSERTION_MESSAGE (Condition : String) : String :=
  "`" ++ Condition ++ "` is false or null."

/-- The macro `_NOT_IMPL_HINT`. -/
def _NOT_IMPL_HINT : String := "Not Implemented!"

/-- The engine macro `PREPROCESSOR_TO_STRING`, applied to `__LINE__`: the decimal
digits of the line number. -/
def PREPROCESSOR_TO_STRING (line : Nat) : String := toString line

/-! ## Log helper internals -/

/-- The macro `_PrintStringPrefix()`: the value of `_Prefix` after its statements. -/
def _PrintStringPrefix (eng : Engine) : String :=
  match eng.GetWorld with
  | none => ""
  | some _GlobalWorld =>
    if _GlobalWorld.WorldType = EWorldType.PIE then
      match _GlobalWorld.GetNetMode with
      | .NM_Client => eng.Printf "Client %d: " [Arg.int eng.GPlayInEditorID]
      | .NM_DedicatedServer => eng.Printf "Server: " []
      | .NM_ListenServer => eng.Printf "Server: " []
      | .NM_Standalone => ""
      | .NM_MAX => ""
    else ""

/-- The text `__VA_OPT__(FString::Printf) (TEXT(Format) __VA_OPT__(,) __VA_ARGS__)`:
the format itself without arguments, `FString::Printf` of it with arguments. -/
def screenText (eng : Engine) (Format : String) : List Arg → String
  | [] => Format
  | a :: va => eng.Printf Format (a :: va)

/-- The macro `_PrintStringImpl(bLog, Color, Format, ...)`. -/
def _PrintStringImpl (eng : Engine) (_bLog : Bool) (Color : FColor) (Format : String)
    (va : List Arg) : List Effect :=
  if eng.GAreScreenMessagesEnabled && eng.GEngine then
    [Effect.AddOnScreenDebugMessage (-1) 2 Color
      (_PrintStringPrefix eng ++ screenText eng Format va)]
  else []

/-- The condition of the `#if` around `_PrintStringInner`. -/
def BuildConfig.printsCompiledIn (cfg : BuildConfig) : Bool :=
  !(cfg.UE_BUILD_SHIPPING || cfg.UE_BUILD_TEST) || cfg.USE_LOGGING_IN_SHIPPING

/-- The macro `_PrintStringInner(bLog, Color, Format, ...)`, in its two definitions. -/
def _PrintStringInner (cfg : BuildConfig) (eng : Engine) (bLog : Bool) (Color : FColor)
    (Format : String) (va : List Arg) : List Effect :=
  if cfg.printsCompiledIn then _PrintStringImpl eng bLog Color Format va else []

/-- Whether a screen print reaches the screen: the `#if` of `_PrintStringInner` holds
and so does the `if` of `_PrintStringImpl`. -/
def printsToScreen (cfg : BuildConfig) (eng : Engine) : Bool :=
  cfg.printsCompiledIn && (eng.GAreScreenMessagesEnabled && eng.GEngine)

/-- The macro `_DEFAULT_LOG_MESSAGE(RawMessage)`. -/
def _DEFAULT_LOG_MESSAGE (RawMessage : String) : String :=
  _DEFAULT_LOG_MESSAGE_RAW_CHAR RawMessage

/-- The macro `_DEFAULT_ASSERTION_MESSAGE_EMPTY(Condition)`, which expands to no
token: it adds nothing to the literal that follows it. -/
def _DEFAULT_ASSERTION_MESSAGE_EMPTY (_Condition : String) : String := ""

/-- The result of one evaluation of an ensure expression: its value, the static flag
`bExecuted` of the call site afterwards, and the engine calls made. -/
structure EnsureResult where
  value : Bool
  bExecuted : Bool
  effects : List Effect
  deriving DecidableEq, Repr

/-- The macro `_CUSTOM_ENSURE_WRAPPER(Capture, Always, InExpression, InFormat, ...)`,
evaluated once at a call site whose static `bExecuted` holds the given value.
The lambda capture has no effect of its own and `UE_VALIDATE_FORMAT_STRING` is a
compile-time check. -/
def _CUSTOM_ENSURE_WRAPPER (cfg : BuildConfig) (eng : Engine) (loc : SrcLoc)
    (Always : Bool) (InExpression : CExpr) (InFormat : String) (va : List Arg)
    (bExecuted : Bool) : EnsureResult :=
  if InExpression.value then
    { value := true, bExecuted := bExecuted, effects := [] }
  else
    let printed := _PrintStringInner cfg eng false FColor.Red InFormat va
    let ENSURE_Static : FStaticEnsureRecord :=
      { Format := InFormat, Expression := InExpression.text, File := loc.FILE,
        Line := loc.LINE, bAlways := Always }
    if (Always || !bExecuted) && eng.IsEnsureAllowed then
      let r := eng.EnsureFailed bExecuted ENSURE_Static va
      { value := false, bExecuted := r.1,
        effects := printed ++ [Effect.EnsureFailed ENSURE_Static va]
          ++ (if r.2 then [Effect.PLATFORM_BREAK] else []) }
    else
      { value := false, bExecuted := bExecuted, effects := printed }

/-- The macro `_LogCheckSlow(Condition, Format, ...)`. -/
def _LogCheckSlow (loc : SrcLoc) (Condition : CExpr) (Format : String) (va : List Arg) :
    List Effect :=
  [Effect.checkfSlow Condition (_DEFAULT_LOG_MESSAGE Format)
    (_DEFAULT_LOG_ARGUMENTS loc va)]

/-- The macro `_LogEnsure(Condition, Format, ...)`. The `__FUNCTION__` it passes
lands inside the lambda of the wrapper. -/
def _LogEnsure (cfg : BuildConfig) (eng : Engine) (loc : SrcLoc) (Condition : CExpr)
    (Format : String) (va : List Arg) (bExecuted : Bool) : EnsureResult :=
  _CUSTOM_ENSURE_WRAPPER cfg eng loc false Condition
    ("%hs(): " ++ Format ++ " [\"" ++ loc.FILE ++ ":" ++ PREPROCESSOR_TO_STRING loc.LINE
      ++ "\"]")
    (Arg.str loc.LAMBDA :: va) bExecuted

/-- The macro `_EnsureInner(Condition, Format, ...)`. -/
def _EnsureInner (cfg : BuildConfig) (eng : Engine) (loc : SrcLoc) (Condition : CExpr)
    (Format : String) (va : List Arg) (bExecuted : Bool) : EnsureResult :=
  _LogEnsure cfg eng loc Condition Format va bExecuted

/-- The macro `_LogVeryVerbose(Format, ...)`. -/
def _LogVeryVerbose (loc : SrcLoc) (Format : String) (va : List Arg) : List Effect :=
  [Effect.UE_LOG _DEFAULT_LOG_CATEGORY Verbosity.VeryVerbose (_DEFAULT_LOG_MESSAGE Format)
    (_DEFAULT_LOG_ARGUMENTS loc va)]

/-- The macro `_LogVerbose(Format, ...)`. -/
def _LogVerbose (loc : SrcLoc) (Format : String) (va : List Arg) : List Effect :=
  [Effect.UE_LOG _DEFAULT_LOG_CATEGORY Verbosity.Verbose (_DEFAULT_LOG_MESSAGE Format)
    (_DEFAULT_LOG_ARGUMENTS loc va)]

/-- The macro `_LogLog(Format, ...)`. -/
def _LogLog (loc : SrcLoc) (Format : String) (va : List Arg) : List Effect :=
  [Effect.UE_LOG _DEFAULT_LOG_CATEGORY Verbosity.Log (_DEFAULT_LOG_MESSAGE Format)
    (_DEFAULT_LOG_ARGUMENTS loc va)]

/-- The macro `_LogDisplay(Format, ...)`. -/
def _LogDisplay (loc : SrcLoc) (Format : String) (va : List Arg) : List Effect :=
  [Effect.UE_LOG _DEFAULT_LOG_CATEGORY Verbosity.Display (_DEFAULT_LOG_MESSAGE Format)
    (_DEFAULT_LOG_ARGUMENTS loc va)]

/-- The macro `_LogWarning(Format, ...)`. -/
def _LogWarning (loc : SrcLoc) (Format : String) (va : List Arg) : List Effect :=
  [Effect.UE_LOG _DEFAULT_LOG_CATEGORY Verbosity.Warning (_DEFAULT_LOG_MESSAGE Format)
    (_DEFAULT_LOG_ARGUMENTS loc va)]

/-- The macro `_LogError(Format, ...)`. -/
def _LogError (loc : SrcLoc) (Format : String) (va : List Arg) : List Effect :=
  [Effect.UE_LOG _DEFAULT_LOG_CATEGORY Verbosity.Error (_DEFAULT_LOG_MESSAGE Format)
    (_DEFAULT_LOG_ARGUMENTS loc va)]

/-- The macro `_LogFatal(Format, ...)`. -/
def _LogFatal (loc : SrcLoc) (Format : String) (va : List Arg) : List Effect :=
  [Effect.UE_LOG _DEFAULT_LOG_CATEGORY Verbosity.Fatal (_DEFAULT_LOG_MESSAGE Format)
    (_DEFAULT_LOG_ARGUMENTS loc va)]

/-! ## Assertions interface -/

/-- The macro `qEnsure(Expr, ...)`, evaluated once at a call site whose static
`bExecuted` holds the given value. -/
def qEnsure (cfg : BuildConfig) (eng : Engine) (defs : MacroDefs) (loc : SrcLoc)
    (Expr : SrcExpr) : Option (String × List Arg) → Bool → EnsureResult
  | none, bExecuted =>
    _EnsureInner cfg eng loc (prescan defs Expr)
      (_DEFAULT_ASSERTION_MESSAGE (prescan defs Expr).text) [] bExecuted
  | some (Fmt, va), bExecuted =>
    _EnsureInner cfg eng loc (prescan defs Expr)
      (_DEFAULT_ASSERTION_MESSAGE_EMPTY (prescan defs Expr).text ++ Fmt) va bExecuted

/-- Successive evaluations of one `qEnsure` call site, the condition taking the listed
values in turn: the static `bExecuted` of the site is carried from each evaluation to
the next. -/
def qEnsureRun (cfg : BuildConfig) (eng : Engine) (defs : MacroDefs) (loc : SrcLoc)
    (tokens : List PPToken) (va : Option (String × List Arg)) :
    Bool → List Bool → List EnsureResult
  | _, [] => []
  | bExecuted, v :: vs =>
    let r := qEnsure cfg eng defs loc { tokens := tokens, value := v } va bExecuted
    r :: qEnsureRun cfg eng defs loc tokens va r.bExecuted vs

/-- The evaluations of a `qEnsure` call site from program start, where the static
`bExecuted` is initialised to `false`. -/
def qEnsureSite (cfg : BuildConfig) (eng : Engine) (defs : MacroDefs) (loc : SrcLoc)
    (tokens : List PPToken) (va : Option (String × List Arg)) (values : List Bool) :
    List EnsureResult :=
  qEnsureRun cfg eng defs loc tokens va false values

/-! ## Log interface -/

/-- The macro `qLog(Verbosity, Fmt, ...)`: `_Log##Verbosity(Fmt, ...)`. -/
def qLog (loc : SrcLoc) (Verbosity : Verbosity) (Fmt : String) (va : List Arg) :
    List Effect :=
  match Verbosity with
  | .VeryVerbose => _LogVeryVerbose loc Fmt va
  | .Verbose => _LogVerbose loc Fmt va
  | .Log => _LogLog loc Fmt va
  | .Display => _LogDisplay loc Fmt va
  | .Warning => _LogWarning loc Fmt va
  | .Error => _LogError loc Fmt va
  | .Fatal => _LogFatal loc Fmt va

/-- The macro `qPrintString(Fmt, ...)`. -/
def qPrintString (cfg : BuildConfig) (eng : Engine) (Fmt : String) (va : List Arg) :
    List Effect :=
  _PrintStringInner cfg eng true FColor.Green Fmt va

/-! ## Quick logs -/

/-- The macro `qErr(Fmt, ...)`. -/
def qErr (cfg : BuildConfig) (eng : Engine) (loc : SrcLoc) (Fmt : String)
    (va : List Arg) : List Effect :=
  _PrintStringInner cfg eng false FColor.Red Fmt va ++ _LogError loc Fmt va

/-- The macro `qWarn(Fmt, ...)`. -/
def qWarn (cfg : BuildConfig) (eng : Engine) (loc : SrcLoc) (Fmt : String)
    (va : List Arg) : List Effect :=
  _PrintStringInner cfg eng false FColor.Yellow Fmt va ++ _LogWarning loc Fmt va

/-- The macro `qPrint(Fmt, ...)`. -/
def qPrint (cfg : BuildConfig) (eng : Engine) (loc : SrcLoc) (Fmt : String)
    (va : List Arg) : List Effect :=
  _PrintStringInner cfg eng false FColor.Green Fmt va ++ _LogDisplay loc Fmt va

/-- The macro `qNotImpl()`. -/
def qNotImpl (cfg : BuildConfig) (eng : Engine) (loc : SrcLoc) : List Effect :=
  _PrintStringInner cfg eng false FColor.Red
      ("%hs(): " ++ _NOT_IMPL_HINT ++ " [\"" ++ loc.FILE ++ ":"
        ++ PREPROCESSOR_TO_STRING loc.LINE ++ "\"]")
      [Arg.str loc.FUNCTION]
    ++ _LogError loc _NOT_IMPL_HINT []

/-- The macro `qB2S(bVar)`. -/
def qB2S (bVar : Bool) : String := if bVar then "true" else "false"

/-! ## Quick early out -/

/-- The values the header gives as `DefaultRet` in the variants of `qNullableRet`:
no expression at all (the function returns `void`), `nullptr`, `false`, `0` and `-1`. -/
inductive RetVal
  | void
  | nullptr
  | bool (b : Bool)
  | int (n : Int)
  deriving DecidableEq, Repr

/-- How control leaves the statements of `qNullableRet`: the enclosing function has
returned a value, or execution goes on after the macro with the new local in scope. -/
inductive Flow (ρ α : Type)
  | returned (value : ρ)
  | next (Var : α)
  deriving DecidableEq, Repr

/-- The state of the caller, the engine calls made and the control flow after the
statements of `qNullableRet`. -/
structure Outcome (σ ρ α : Type) where
  state : σ
  effects : List Effect
  flow : Flow ρ α

/-- The macro `qNullableRet(Var, Val, DefaultRet, Fmt, ...)`. `Val` is an expression
of the caller: evaluated in a state of the caller it gives a pointer (`none` is
`nullptr`) and the state afterwards. -/
def qNullableRet {σ ρ α : Type} (cfg : BuildConfig) (eng : Engine) (loc : SrcLoc)
    (Val : σ → Option α × σ) (DefaultRet : ρ) (Fmt : String) (va : List Arg) (s : σ) :
    Outcome σ ρ (Option α) :=
  let evaluated := Val s
  let Var := evaluated.1
  if Var.isNone then
    { state := evaluated.2, effects := qErr cfg eng loc Fmt va,
      flow := Flow.returned DefaultRet }
  else
    { state := evaluated.2, effects := [], flow := Flow.next Var }

/-- The macro `qNullable(Var, Val, Fmt, ...)`. -/
def qNullable {σ α : Type} (cfg : BuildConfig) (eng : Engine) (loc : SrcLoc)
    (Val : σ → Option α × σ) (Fmt : String) (va : List Arg) (s : σ) :
    Outcome σ RetVal (Option α) :=
  qNullableRet cfg eng loc Val RetVal.void Fmt va s

/-- The macro `qNullableRetNull(Var, Val, Fmt, ...)`. -/
def qNullableRetNull {σ α : Type} (cfg : BuildConfig) (eng : Engine) (loc : SrcLoc)
    (Val : σ → Option α × σ) (Fmt : String) (va : List Arg) (s : σ) :
    Outcome σ RetVal (Option α) :=
  qNullableRet cfg eng loc Val RetVal.nullptr Fmt va s

/-- The macro `qNullableRetFalse(Var, Val, Fmt, ...)`. -/
def qNullableRetFalse {σ α : Type} (cfg : BuildConfig) (eng : Engine) (loc : SrcLoc)
    (Val : σ → Option α × σ) (Fmt : String) (va : List Arg) (s : σ) :
    Outcome σ RetVal (Option α) :=
  qNullableRet cfg eng loc Val (RetVal.bool false) Fmt va s

/-- The macro `qNullableRetZero(Var, Val, Fmt, ...)`. -/
def qNullableRetZero {σ α : Type} (cfg : BuildConfig) (eng : Engine) (loc : SrcLoc)
    (Val : σ → Option α × σ) (Fmt : String) (va : List Arg) (s : σ) :
    Outcome σ RetVal (Option α) :=
  qNullableRet cfg eng loc Val (RetVal.int 0) Fmt va s

/-- The macro `qNullableRetNeg1(Var, Val, Fmt, ...)`. -/
def qNullableRetNeg1 {σ α : Type} (cfg : BuildConfig) (eng : Engine) (loc : SrcLoc)
    (Val : σ → Option α × σ) (Fmt : String) (va : List Arg) (s : σ) :
    Outcome σ RetVal (Option α) :=
  qNullableRet cfg eng loc Val (RetVal.int (-1)) Fmt va s

/-! ## Concrete inputs -/

/-- The text a printf argument is rendered to. -/
def Arg.render : Arg → String
  | .str s => s
  | .int n => toString n

/-- A reading of printf formats, enough for the conversions the header itself writes:
`%%` is a percent sign; any other conversion runs from `%` to its conversion letter,
flags, width and length modifiers being skipped, and renders the next argument. The
flag says whether the scan is inside a conversion. -/
def printfChars : Bool → List Char → List Arg → List Char
  | _, [], _ => []
  | false, c :: cs, args =>
    if c = '%' then printfChars true cs args else c :: printfChars false cs args
  | true, c :: cs, args =>
    if c = '%' then '%' :: printfChars false cs args
    else if c = 'd' ∨ c = 's' ∨ c = 'i' ∨ c = 'u' ∨ c = 'c' ∨ c = 'f' ∨ c = 'x' then
      match args with
      | a :: rest => a.render.toList ++ printfChars false cs rest
      | [] => printfChars false cs []
    else printfChars true cs args

/-- The stand-in for `FString::Printf` in the concrete engines below. -/
def samplePrintf (Format : String) (args : List Arg) : String :=
  String.mk (printfChars false Format.toList args)

/-- A development build: neither shipping nor test. -/
def developmentBuild : BuildConfig :=
  { UE_BUILD_SHIPPING := false, UE_BUILD_TEST := false, USE_LOGGING_IN_SHIPPING := false }

/-- A running game outside the editor: screen messages enabled, `GEngine` set, ensures
allowed, and an `EnsureFailed` that sets the flag it is handed and asks for no break. -/
def sampleEngine : Engine :=
  { GAreScreenMessagesEnabled := true, GEngine := true,
    GetWorld := some { WorldType := EWorldType.Game, GetNetMode := ENetMode.NM_Standalone },
    GPlayInEditorID := 0, Printf := samplePrintf, IsEnsureAllowed := true,
    EnsureFailed := fun _ _ _ => (true, false) }

/-- The condition `Ptr != nullptr`, written with single spaces. -/
def ptrNotNull : List PPToken :=
  [{ white := "", spelling := "Ptr" }, { white := " ", spelling := "!=" },
    { white := " ", spelling := "nullptr" }]

/-- A place in a source file, after the example in the header's comments. -/
def sampleLoc : SrcLoc :=
  { FUNCTION := "AActor::BeginPlay", LAMBDA := "AActor::BeginPlay::<lambda_1>::operator ()",
    FILE := "Actor.cpp", LINE := 299 }

/-! ## Lemmas on the helpers -/

/-- The screen print in one piece: one message when it reaches the screen, nothing otherwise. -/
theorem PrintStringInner_eq (cfg : BuildConfig) (eng : Engine) (bLog : Bool) (Color : FColor)
    (Format : String) (va : List Arg) :
    _PrintStringInner cfg eng bLog Color Format va =
      if printsToScreen cfg eng then
        [Effect.AddOnScreenDebugMessage (-1) 2 Color
          (_PrintStringPrefix eng ++ screenText eng Format va)]
      else [] := by
  unfold _PrintStringInner _PrintStringImpl printsToScreen
  cases cfg.printsCompiledIn <;> cases eng.GAreScreenMessagesEnabled <;> cases eng.GEngine <;> rfl

/-- A screen print makes no log record. -/
theorem PrintStringInner_filter_isLog (cfg : BuildConfig) (eng : Engine) (bLog : Bool)
    (Color : FColor) (Format : String) (va : List Arg) :
    (_PrintStringInner cfg eng bLog Color Format va).filter Effect.isLog = [] := by
  rw [PrintStringInner_eq]
  cases printsToScreen cfg eng <;> rfl

/-- A screen print makes screen messages only. -/
theorem PrintStringInner_filter_isScreen (cfg : BuildConfig) (eng : Engine) (bLog : Bool)
    (Color : FColor) (Format : String) (va : List Arg) :
    (_PrintStringInner cfg eng bLog Color Format va).filter Effect.isScreen =
      _PrintStringInner cfg eng bLog Color Format va := by
  rw [PrintStringInner_eq]
  cases printsToScreen cfg eng <;> rfl

/-- A screen print makes no ensure report. -/
theorem PrintStringInner_filter_isEnsureReport (cfg : BuildConfig) (eng : Engine)
    (bLog : Bool) (Color : FColor) (Format : String) (va : List Arg) :
    (_PrintStringInner cfg eng bLog Color Format va).filter Effect.isEnsureReport = [] := by
  rw [PrintStringInner_eq]
  cases printsToScreen cfg eng <;> rfl

/-- The log records of a screen print followed by one log record. -/
theorem quickLog_filter_isLog (cfg : BuildConfig) (eng : Engine) (Color : FColor)
    (Format : String) (va : List Arg) (log : Effect) (h : log.isLog = true) :
    (_PrintStringInner cfg eng false Color Format va ++ [log]).filter Effect.isLog = [log] := by
  rw [List.filter_append, PrintStringInner_filter_isLog]
  simp [List.filter, h]

/-- The screen messages of a screen print followed by one log record. -/
theorem quickLog_filter_isScreen (cfg : BuildConfig) (eng : Engine) (Color : FColor)
    (Format : String) (va : List Arg) (log : Effect) (h : log.isScreen = false) :
    (_PrintStringInner cfg eng false Color Format va ++ [log]).filter Effect.isScreen =
      _PrintStringInner cfg eng false Color Format va := by
  rw [List.filter_append, PrintStringInner_filter_isScreen]
  simp [List.filter, h]

/-! ## Quick logs and `qLog` -/

/-- C5. For every format and arguments, `qErr`, `qWarn` and `qPrint` hand exactly one
record to `UE_LOG`, in category `LogTemp`, at verbosity `Error`, `Warning` and `Display`
respectively, whatever the build configuration and the state of the engine; where the
screen print is compiled in and enabled they show one screen message, `Red`, `Yellow`
and `Green` respectively, and none otherwise. The record and the message are built
from the same format and arguments: the record's format is the user format between
the fixed location decoration and its arguments are the user arguments between the
function name and the file and line; the message is the prefix followed by the user
format, formatted with the user arguments when there are any. -/
theorem quick_logs_pair_colour_with_verbosity (cfg : BuildConfig) (eng : Engine)
    (loc : SrcLoc) (Fmt : String) (va : List Arg) :
    ((qErr cfg eng loc Fmt va).filter Effect.isLog =
        [Effect.UE_LOG "LogTemp" Verbosity.Error
          ("\t%60hs():\t" ++ Fmt ++ "\t[\"%hs:%d\"]")
          (Arg.str loc.FUNCTION :: va ++ [Arg.str loc.FILE, Arg.int loc.LINE])]
      ∧ (qErr cfg eng loc Fmt va).filter Effect.isScreen =
        (if printsToScreen cfg eng then
          [Effect.AddOnScreenDebugMessage (-1) 2 FColor.Red
            (_PrintStringPrefix eng ++ screenText eng Fmt va)]
        else [])
      ∧ (qErr cfg eng loc Fmt va).length = if printsToScreen cfg eng then 2 else 1)
    ∧ ((qWarn cfg eng loc Fmt va).filter Effect.isLog =
        [Effect.UE_LOG "LogTemp" Verbosity.Warning
          ("\t%60hs():\t" ++ Fmt ++ "\t[\"%hs:%d\"]")
          (Arg.str loc.FUNCTION :: va ++ [Arg.str loc.FILE, Arg.int loc.LINE])]
      ∧ (qWarn cfg eng loc Fmt va).filter Effect.isScreen =
        (if printsToScreen cfg eng then
          [Effect.AddOnScreenDebugMessage (-1) 2 FColor.Yellow
            (_PrintStringPrefix eng ++ screenText eng Fmt va)]
        else [])
      ∧ (qWarn cfg eng loc Fmt va).length = if printsToScreen cfg eng then 2 else 1)
    ∧ ((qPrint cfg eng loc Fmt va).filter Effect.isLog =
        [Effect.UE_LOG "LogTemp" Verbosity.Display
          ("\t%60hs():\t" ++ Fmt ++ "\t[\"%hs:%d\"]")
          (Arg.str loc.FUNCTION :: va ++ [Arg.str loc.FILE, Arg.int loc.LINE])]
      ∧ (qPrint cfg eng loc Fmt va).filter Effect.isScreen =
        (if printsToScreen cfg eng then
          [Effect.AddOnScreenDebugMessage (-1) 2 FColor.Green
            (_PrintStringPrefix eng ++ screenText eng Fmt va)]
        else [])
      ∧ (qPrint cfg eng loc Fmt va).length = if printsToScreen cfg eng then 2 else 1) := by
  refine ⟨⟨?_, ?_, ?_⟩, ⟨?_, ?_, ?_⟩, ⟨?_, ?_, ?_⟩⟩
  · exact quickLog_filter_isLog cfg eng _ Fmt va _ rfl
  · rw [← PrintStringInner_eq cfg eng false FColor.Red Fmt va]
    exact quickLog_filter_isScreen cfg eng _ Fmt va _ rfl
  · unfold qErr _LogError
    rw [PrintStringInner_eq]
    cases printsToScreen cfg eng <;> rfl
  · exact quickLog_filter_isLog cfg eng _ Fmt va _ rfl
  · rw [← PrintStringInner_eq cfg eng false FColor.Yellow Fmt va]
    exact quickLog_filter_isScreen cfg eng _ Fmt va _ rfl
  · unfold qWarn _LogWarning
    rw [PrintStringInner_eq]
    cases printsToScreen cfg eng <;> rfl
  · exact quickLog_filter_isLog cfg eng _ Fmt va _ rfl
  · rw [← PrintStringInner_eq cfg eng false FColor.Green Fmt va]
    exact quickLog_filter_isScreen cfg eng _ Fmt va _ rfl
  · unfold qPrint _LogDisplay
    rw [PrintStringInner_eq]
    cases printsToScreen cfg eng <;> rfl

/-- C6. For each of the seven verbosities and every format and arguments, `qLog` makes
exactly one engine call, a `UE_LOG` in category `LogTemp` at the given verbosity, whose
format is the given format between the fixed location decoration and whose arguments
are the given arguments, in order, between the function name and the file and line;
it puts no message on the screen. -/
theorem qLog_is_one_UE_LOG (loc : SrcLoc) (v : Verbosity) (Fmt : String) (va : List Arg) :
    qLog loc v Fmt va =
        [Effect.UE_LOG "LogTemp" v ("\t%60hs():\t" ++ Fmt ++ "\t[\"%hs:%d\"]")
          (Arg.str loc.FUNCTION :: va ++ [Arg.str loc.FILE, Arg.int loc.LINE])]
      ∧ (qLog loc v Fmt va).filter Effect.isScreen = [] := by
  cases v <;> exact ⟨rfl, rfl⟩

/-! ## Assertions -/

/-- A sequence whose tokens spell no defined macro is left as it is. -/
theorem macroReplace_of_namesNoMacro (n : Nat) (defs : MacroDefs) (ts : List PPToken)
    (h : namesNoMacro defs ts = true) : macroReplace n defs ts = ts := by
  cases n with
  | zero => rfl
  | succ n =>
    unfold macroReplace
    induction ts with
    | nil => rfl
    | cons t ts ih =>
      simp only [namesNoMacro, List.all_cons, Bool.and_eq_true] at h
      have ht : defs.lookup t.spelling = none := by
        cases hl : defs.lookup t.spelling with
        | none => rfl
        | some body => rw [hl] at h; exact absurd h.1 (by simp)
      have hts : namesNoMacro defs ts = true := h.2
      rw [List.flatMap_cons, ih hts, ht]
      rfl

/-- Removing a macro that is defined leaves fewer macros. -/
theorem length_filter_lt_of_lookup (defs : MacroDefs) (name : String) (body : List PPToken)
    (h : defs.lookup name = some body) :
    (defs.filter fun d => d.1 != name).length < defs.length := by
  induction defs with
  | nil => simp [List.lookup] at h
  | cons d defs ih =>
    obtain ⟨k, v⟩ := d
    by_cases hk : name = k
    · subst hk
      have : (List.filter (fun d => d.1 != name) ((name, v) :: defs)) =
          List.filter (fun d => d.1 != name) defs := by
        simp [List.filter]
      rw [this]
      exact Nat.lt_succ_of_le (List.length_filter_le _ _)
    · have hne : (name == k) = false := by simpa using hk
      have hl : defs.lookup name = some body := by
        simpa [List.lookup, hne] using h
      have hk2 : (k != name) = true := by
        simp only [bne_iff_ne, ne_eq]
        exact fun e => hk e.symm
      have : (List.filter (fun d => d.1 != name) ((k, v) :: defs)) =
          (k, v) :: List.filter (fun d => d.1 != name) defs := by
        simp [List.filter, hk2]
      rw [this]
      simpa using ih hl

/-- Any two depths that are at least the number of macros give the same replacement. -/
theorem macroReplace_depth_stable (n : Nat) :
    ∀ (m : Nat) (defs : MacroDefs) (ts : List PPToken), defs.length ≤ n → defs.length ≤ m →
      macroReplace n defs ts = macroReplace m defs ts := by
  induction n with
  | zero =>
    intro m defs ts hn _
    have hd : defs = [] := List.length_eq_zero.mp (Nat.le_zero.mp hn)
    subst hd
    exact (macroReplace_of_namesNoMacro 0 [] ts (by simp [namesNoMacro, List.lookup])).trans
      (macroReplace_of_namesNoMacro m [] ts (by simp [namesNoMacro, List.lookup])).symm
  | succ n ih =>
    intro m defs ts hn hm
    cases m with
    | zero =>
      have hd : defs = [] := List.length_eq_zero.mp (Nat.le_zero.mp hm)
      subst hd
      exact (macroReplace_of_namesNoMacro (n + 1) [] ts
          (by simp [namesNoMacro, List.lookup])).trans
        (macroReplace_of_namesNoMacro 0 [] ts (by simp [namesNoMacro, List.lookup])).symm
    | succ m =>
      unfold macroReplace
      congr 1
      funext t
      cases hl : defs.lookup t.spelling with
      | none => rfl
      | some body =>
        have hlt := length_filter_lt_of_lookup defs t.spelling body hl
        show withWhite t.white (macroReplace n _ body) = withWhite t.white (macroReplace m _ body)
        rw [ih m _ body (by omega) (by omega)]

/-- The depth `macroReplaceAll` takes is enough: a greater depth changes nothing. -/
theorem macroReplace_depth_enough (defs : MacroDefs) (ts : List PPToken) (k : Nat) :
    macroReplace (defs.length + k) defs ts = macroReplaceAll defs ts :=
  macroReplace_depth_stable (defs.length + k) defs.length defs ts (Nat.le_add_right _ _)
    (Nat.le_refl _)

/-- C3, as the claim states it, fails: in a development build with screen messages
on, `qNotImpl()` in `AActor::BeginPlay` at `Actor.cpp:299` and `qErr("Not Implemented!")`
at the same place show different texts on the screen. -/
theorem qNotImpl_screen_text_differs :
    (qNotImpl developmentBuild sampleEngine sampleLoc).filter Effect.isScreen =
        [Effect.AddOnScreenDebugMessage (-1) 2 FColor.Red
          "AActor::BeginPlay(): Not Implemented! [\"Actor.cpp:299\"]"]
      ∧ (qErr developmentBuild sampleEngine sampleLoc "Not Implemented!" []).filter
          Effect.isScreen =
        [Effect.AddOnScreenDebugMessage (-1) 2 FColor.Red "Not Implemented!"]
      ∧ (qNotImpl developmentBuild sampleEngine sampleLoc).filter Effect.isScreen ≠
        (qErr developmentBuild sampleEngine sampleLoc "Not Implemented!" []).filter
          Effect.isScreen := by
  decide

/-- C3, amended. At every source location, in every build configuration and engine
state, `qNotImpl()` hands `UE_LOG` the same single record as `qErr("Not Implemented!")`
(category `LogTemp`, verbosity `Error`, the same format and arguments), and it shows a
screen message exactly when `qErr` does, in the same colour `Red` and after the same
prefix. The text after the prefix differs: `qErr` shows "Not Implemented!" itself,
`qNotImpl` shows `FString::Printf` of "%hs(): Not Implemented! [\"<file>:<line>\"]"
with the function name. Where no screen message is shown the two make the same
engine calls. -/
theorem qNotImpl_same_log_other_screen_text (cfg : BuildConfig) (eng : Engine)
    (loc : SrcLoc) :
    (qNotImpl cfg eng loc).filter Effect.isLog =
        (qErr cfg eng loc "Not Implemented!" []).filter Effect.isLog
      ∧ (qNotImpl cfg eng loc).filter Effect.isLog =
        [Effect.UE_LOG "LogTemp" Verbosity.Error "\t%60hs():\tNot Implemented!\t[\"%hs:%d\"]"
          [Arg.str loc.FUNCTION, Arg.str loc.FILE, Arg.int loc.LINE]]
      ∧ (qErr cfg eng loc "Not Implemented!" []).filter Effect.isScreen =
        (if printsToScreen cfg eng then
          [Effect.AddOnScreenDebugMessage (-1) 2 FColor.Red
            (_PrintStringPrefix eng ++ "Not Implemented!")]
        else [])
      ∧ (qNotImpl cfg eng loc).filter Effect.isScreen =
        (if printsToScreen cfg eng then
          [Effect.AddOnScreenDebugMessage (-1) 2 FColor.Red
            (_PrintStringPrefix eng ++
              eng.Printf ("%hs(): Not Implemented! [\"" ++ loc.FILE ++ ":" ++ toString loc.LINE
                ++ "\"]") [Arg.str loc.FUNCTION])]
        else [])
      ∧ (if printsToScreen cfg eng then True
        else qNotImpl cfg eng loc = qErr cfg eng loc "Not Implemented!" []) := by
  have hlog : ∀ Format va, (_PrintStringInner cfg eng false FColor.Red Format va
      ++ _LogError loc "Not Implemented!" []).filter Effect.isLog =
      [Effect.UE_LOG "LogTemp" Verbosity.Error "\t%60hs():\tNot Implemented!\t[\"%hs:%d\"]"
        [Arg.str loc.FUNCTION, Arg.str loc.FILE, Arg.int loc.LINE]] := fun Format va =>
    quickLog_filter_isLog cfg eng _ Format va _ rfl
  have hscr : ∀ Format va, (_PrintStringInner cfg eng false FColor.Red Format va
      ++ _LogError loc "Not Implemented!" []).filter Effect.isScreen =
      _PrintStringInner cfg eng false FColor.Red Format va := fun Format va =>
    quickLog_filter_isScreen cfg eng _ Format va _ rfl
  refine ⟨?_, ?_, ?_, ?_, ?_⟩
  · exact (hlog _ _).trans (hlog _ _).symm
  · exact hlog _ _
  · exact (hscr _ _).trans (PrintStringInner_eq ..)
  · exact (hscr _ _).trans (PrintStringInner_eq ..)
  · unfold qNotImpl qErr
    rw [PrintStringInner_eq, PrintStringInner_eq]
    cases printsToScreen cfg eng
    · rfl
    · trivial

/-! ## Early return on null -/

/-- C2. `qNullableRet` evaluates `Val` once: the caller's state afterwards is the state
after one evaluation of `Val`. When the value is `nullptr` the engine calls are those
of `qErr` with the given format and arguments, among them exactly one log record, at
verbosity `Error`, and the enclosing function returns `DefaultRet`. When the value is
not `nullptr` no engine call is made, nothing is returned and execution goes on with
`Var` equal to the value. The five variants are `qNullableRet` with `DefaultRet` fixed:
nothing (`void`), `nullptr`, `false`, `0` and `-1`. -/
theorem qNullableRet_early_return {σ ρ α : Type} (cfg : BuildConfig) (eng : Engine)
    (loc : SrcLoc) (Val : σ → Option α × σ) (DefaultRet : ρ) (Fmt : String)
    (va : List Arg) (s : σ) :
    (qNullableRet cfg eng loc Val DefaultRet Fmt va s).state = (Val s).2
      ∧ (match (Val s).1 with
        | none =>
          (qNullableRet cfg eng loc Val DefaultRet Fmt va s).effects = qErr cfg eng loc Fmt va
            ∧ (qNullableRet cfg eng loc Val DefaultRet Fmt va s).effects.filter Effect.isLog =
              [Effect.UE_LOG "LogTemp" Verbosity.Error
                ("\t%60hs():\t" ++ Fmt ++ "\t[\"%hs:%d\"]")
                (Arg.str loc.FUNCTION :: va ++ [Arg.str loc.FILE, Arg.int loc.LINE])]
            ∧ (qNullableRet cfg eng loc Val DefaultRet Fmt va s).flow =
              Flow.returned DefaultRet
        | some p =>
          (qNullableRet cfg eng loc Val DefaultRet Fmt va s).effects = []
            ∧ (qNullableRet cfg eng loc Val DefaultRet Fmt va s).flow = Flow.next (some p))
      ∧ qNullable cfg eng loc Val Fmt va s = qNullableRet cfg eng loc Val RetVal.void Fmt va s
      ∧ qNullableRetNull cfg eng loc Val Fmt va s =
        qNullableRet cfg eng loc Val RetVal.nullptr Fmt va s
      ∧ qNullableRetFalse cfg eng loc Val Fmt va s =
        qNullableRet cfg eng loc Val (RetVal.bool false) Fmt va s
      ∧ qNullableRetZero cfg eng loc Val Fmt va s =
        qNullableRet cfg eng loc Val (RetVal.int 0) Fmt va s
      ∧ qNullableRetNeg1 cfg eng loc Val Fmt va s =
        qNullableRet cfg eng loc Val (RetVal.int (-1)) Fmt va s := by
  refine ⟨?_, ?_, rfl, rfl, rfl, rfl, rfl⟩
  · unfold qNullableRet
    cases h : (Val s).1 <;> simp [h]
  · cases h : (Val s).1 with
    | none =>
      have hq : qNullableRet cfg eng loc Val DefaultRet Fmt va s =
          { state := (Val s).2, effects := qErr cfg eng loc Fmt va,
            flow := Flow.returned DefaultRet } := by
        unfold qNullableRet
        simp [h]
      rw [hq]
      exact ⟨rfl, quickLog_filter_isLog cfg eng _ Fmt va _ rfl, rfl⟩
    | some p =>
      have hq : qNullableRet cfg eng loc Val DefaultRet Fmt va s =
          { state := (Val s).2, effects := [], flow := Flow.next (some p) } := by
        unfold qNullableRet
        simp [h]
      rw [hq]
      exact ⟨rfl, rfl⟩

/-! ## `qEnsure` at one call site -/

/-- An ensure expression has the value of its condition. -/
theorem ensure_wrapper_value (cfg : BuildConfig) (eng : Engine) (loc : SrcLoc)
    (Always : Bool) (InExpression : CExpr) (InFormat : String) (va : List Arg)
    (bExecuted : Bool) :
    (_CUSTOM_ENSURE_WRAPPER cfg eng loc Always InExpression InFormat va bExecuted).value =
      InExpression.value := by
  unfold _CUSTOM_ENSURE_WRAPPER
  cases h : InExpression.value
  · simp only [Bool.false_eq_true, if_false]
    split <;> rfl
  · rfl

/-- Once the flag of the site is set, a failing evaluation of a non-`Always` ensure
makes no ensure report and leaves the flag set. -/
theorem ensure_wrapper_reports_once (cfg : BuildConfig) (eng : Engine) (loc : SrcLoc)
    (InExpression : CExpr) (InFormat : String) (va : List Arg)
    (h : InExpression.value = false) :
    (_CUSTOM_ENSURE_WRAPPER cfg eng loc false InExpression InFormat va true).bExecuted = true
      ∧ (_CUSTOM_ENSURE_WRAPPER cfg eng loc false InExpression InFormat va
          true).effects.filter Effect.isEnsureReport = [] := by
  unfold _CUSTOM_ENSURE_WRAPPER
  simp [h, PrintStringInner_filter_isEnsureReport]

/-- The screen print of the wrapper stands before the test of the flag: every failing
evaluation makes it, whatever the flag holds. -/
theorem ensure_wrapper_prints_on_every_failure (cfg : BuildConfig) (eng : Engine)
    (loc : SrcLoc) (Always : Bool) (InExpression : CExpr) (InFormat : String)
    (va : List Arg) (bExecuted : Bool) (h : InExpression.value = false) :
    (_CUSTOM_ENSURE_WRAPPER cfg eng loc Always InExpression InFormat va
        bExecuted).effects.filter Effect.isScreen =
      _PrintStringInner cfg eng false FColor.Red InFormat va := by
  unfold _CUSTOM_ENSURE_WRAPPER
  simp only [h, Bool.false_eq_true, if_false]
  split
  · rw [List.filter_append, List.filter_append, PrintStringInner_filter_isScreen]
    split <;> simp [List.filter, Effect.isScreen]
  · exact PrintStringInner_filter_isScreen ..

/-- C1, the defect. A `qEnsure(Ptr != nullptr)` whose condition is false twice, in a
development build with screen messages on, ensures allowed and an `EnsureFailed` that
sets the flag: both evaluations yield `false` and the ensure report is made by the
first only, but the red screen message is shown by the second evaluation as well. -/
theorem qEnsure_second_failure_prints_again :
    (qEnsureSite developmentBuild sampleEngine [] sampleLoc ptrNotNull none
        [false, false]).map
        (fun r => (r.value, r.effects.filter Effect.isEnsureReport,
          r.effects.filter Effect.isScreen)) =
      [(false,
        [Effect.EnsureFailed
          { Format := "%hs(): `Ptr != nullptr` is false or null. [\"Actor.cpp:299\"]",
            Expression := "Ptr != nullptr", File := "Actor.cpp", Line := 299,
            bAlways := false }
          [Arg.str "AActor::BeginPlay::<lambda_1>::operator ()"]],
        [Effect.AddOnScreenDebugMessage (-1) 2 FColor.Red
          ("AActor::BeginPlay::<lambda_1>::operator ()(): "
            ++ "`Ptr != nullptr` is false or null. [\"Actor.cpp:299\"]")]),
       (false, [],
        [Effect.AddOnScreenDebugMessage (-1) 2 FColor.Red
          ("AActor::BeginPlay::<lambda_1>::operator ()(): "
            ++ "`Ptr != nullptr` is false or null. [\"Actor.cpp:299\"]")])] := by
  decide

end QLogs
